import Mathlib

/-!
Verification development for the transaction-authentication and state-transition
core of the Modular-zk-Rollup-On-Demand repository.

The Rust source is shallowly embedded: machine integers become `Nat` with explicit
bounds where overflow or fixed widths matter, `BigUint` becomes `Nat`, fallible or
panicking code returns `Option` (with `none` for a panic) or `Except`, and the
hash-map based account tree becomes an association list.  Cryptographic primitives
(MuSig recovery, Ethereum signature recovery, the base-chain oracle) are parameters
of the model, since the embedded code only branches on their results.
-/

namespace Rollup

/-! ## Big-endian fixed-width byte encoding (`to_be_bytes` on uN) -/

/-- Big-endian byte encoding of `n` in exactly `k` bytes, as `uN::to_be_bytes`
produces for `k`-byte integers. -/
def beBytes : Nat → Nat → List Nat
  | 0, _ => []
  | k + 1, n => beBytes k (n / 256) ++ [n % 256]

/-- Big-endian interpretation of a byte list. -/
def fromBytesBE (l : List Nat) : Nat := l.foldl (fun a b => a * 256 + b) 0

/-! ## Configuration constants

Modelled from the spec: the numeric bounds live in `zksync_crypto::params`, which is
repository code outside the sampled sources; the spec only requires a configured
maximum for account ids and token ids, with the fungible and processable subranges
below the full token range.  Concrete representative values are fixed here. -/

/-- Modelled from the spec: `params::max_account_id()`. -/
def max_account_id : Nat := 2 ^ 32 - 2

/-- Modelled from the spec: `params::max_token_id()`. -/
def max_token_id : Nat := 2 ^ 32 - 1

/-- Modelled from the spec: `params::max_fungible_token_id()`. -/
def max_fungible_token_id : Nat := 2 ^ 16 - 1

/-- Modelled from the spec: `params::max_processable_token()`. -/
def max_processable_token : Nat := 2 ^ 10 - 1

/-- Modelled from the spec: `CURRENT_TX_VERSION` byte written by `Transfer::get_bytes`. -/
def currentTxVersion : Nat := 1

/-! ## Amount codec

Modelled from the spec: `zksync_types::helpers` (`pack_fee_amount`,
`is_fee_amount_packable`, `pack_token_amount`, `is_token_amount_packable`) is
repository code outside the sampled sources.  Per the spec it is a
mantissa+exponent floating encoding with fixed bit widths, distinct for the fee
and transferable-amount classes, lossy by design, with the minimal exponent such
that the mantissa fits; packability is the exact round trip. -/

/-- Modelled from the spec: `convert_to_float` — minimal decimal exponent `e` (below
`2 ^ expBits`) such that the mantissa `n / 10 ^ e` fits in `mantBits` bits. -/
def convertToFloat (expBits mantBits n : Nat) : Option (Nat × Nat) :=
  ((List.range (2 ^ expBits)).find? (fun e => n / 10 ^ e ≤ 2 ^ mantBits - 1)).map
    (fun e => (e, n / 10 ^ e))

/-- Modelled from the spec: `pack_fee_amount` — 5 exponent bits, 11 mantissa bits,
serialized into 2 bytes (empty on unrepresentable input). -/
def pack_fee_amount (fee : Nat) : List Nat :=
  match convertToFloat 5 11 fee with
  | some (e, m) => beBytes 2 (e * 2 ^ 11 + m)
  | none => []

/-- Modelled from the spec: `unpack_fee_amount` — total over well-formed 2-byte strings. -/
def unpack_fee_amount (l : List Nat) : Option Nat :=
  match l with
  | [b1, b0] =>
    let v := b1 * 256 + b0
    some ((v % 2 ^ 11) * 10 ^ (v / 2 ^ 11))
  | _ => none

/-- Modelled from the spec: `is_fee_amount_packable` — the exact pack/unpack round trip. -/
def is_fee_amount_packable (fee : Nat) : Bool :=
  unpack_fee_amount (pack_fee_amount fee) == some fee

/-- Modelled from the spec: `pack_token_amount` — 5 exponent bits, 35 mantissa bits,
serialized into 5 bytes (empty on unrepresentable input). -/
def pack_token_amount (amount : Nat) : List Nat :=
  match convertToFloat 5 35 amount with
  | some (e, m) => beBytes 5 (e * 2 ^ 35 + m)
  | none => []

/-- Modelled from the spec: `unpack_token_amount` over well-formed 5-byte strings. -/
def unpack_token_amount (l : List Nat) : Option Nat :=
  match l with
  | [b4, b3, b2, b1, b0] =>
    let v := fromBytesBE [b4, b3, b2, b1, b0]
    some ((v % 2 ^ 35) * 10 ^ (v / 2 ^ 35))
  | _ => none

/-- Modelled from the spec: `is_token_amount_packable` — the exact round trip. -/
def is_token_amount_packable (amount : Nat) : Bool :=
  unpack_token_amount (pack_token_amount amount) == some amount

/-! ## Time range -/

/-- Validity window of a transaction (`zksync_types::tx::TimeRange`).
Modelled from the spec: the type itself lives outside the sampled sources; it is a
pair of u64 bounds serialized big-endian as the 16-byte time-range suffix, with
`check_correctness` requiring internal consistency of the window. -/
structure TimeRange where
  validFrom : Nat
  validUntil : Nat
deriving DecidableEq

/-- Modelled from the spec: default time range — the full u64 window. -/
def TimeRange.defaultRange : TimeRange := ⟨0, 2 ^ 64 - 1⟩

/-- Modelled from the spec: `TimeRange::as_be_bytes`. -/
def TimeRange.as_be_bytes (t : TimeRange) : List Nat :=
  beBytes 8 t.validFrom ++ beBytes 8 t.validUntil

/-- Modelled from the spec: `TimeRange::check_correctness` — internal consistency
of the window. -/
def TimeRange.check_correctness (t : TimeRange) : Bool :=
  t.validFrom ≤ t.validUntil

/-! ## Native (rollup) signatures -/

inductive TxVersion
  | v1
deriving DecidableEq

/-- Abstract handle for a `TxSignature` value (the pubkey+signature bundle). -/
structure TxSignature where
  sig : Nat
deriving DecidableEq

/-- `VerifiedSignatureCache` from `zksync_types::tx`: an optional memoized
signer-recovery result. -/
inductive VerifiedSignatureCache
  | notCached
  | cached (v : Option (Nat × TxVersion))
deriving DecidableEq

/-- The pure cryptographic primitives used by native signature recovery
(`TxSignature::verify_musig` composed with `PubKeyHash::from_pubkey`): a parameter
of the model, since the embedded code only consumes their results. -/
structure NativeSigScheme where
  verifyMusig : TxSignature → List Nat → Option Nat
  pubKeyHashOf : Nat → Nat

/-- Server configuration read via `parse_env` inside `check_correctness`. -/
structure ServerConfig where
  serverGroupId : Nat
  permissioned : Bool

/-! ## `Transfer` (src/core/lib/types/src/tx/transfer.rs) -/

/-- The `Transfer` transaction.  Addresses are 20-byte values embedded as `Nat`;
`from` is spelled `fromAddr` (and `to` `toAddr`) because `from` is reserved in Lean. -/
structure Transfer where
  accountId : Nat
  fromAddr : Nat
  toAddr : Nat
  token : Nat
  amount : Nat
  fee : Nat
  group : Nat
  nonce : Nat
  timeRange : Option TimeRange
  signature : TxSignature
  cachedSigner : VerifiedSignatureCache
deriving DecidableEq

namespace Transfer

/-- `Transfer::TX_TYPE`. -/
def TX_TYPE : Nat := 5

/-- `Transfer::get_bytes`: tag byte `255 - TX_TYPE`, version byte, then the
big-endian fixed-width fields, packed amount and fee, group, nonce and the
time-range suffix (`unwrap_or_default`). -/
def get_bytes (tx : Transfer) : List Nat :=
  [255 - TX_TYPE] ++ [currentTxVersion] ++ beBytes 4 tx.accountId ++
    beBytes 20 tx.fromAddr ++ beBytes 20 tx.toAddr ++ beBytes 4 tx.token ++
    pack_token_amount tx.amount ++ pack_fee_amount tx.fee ++ beBytes 2 tx.group ++
    beBytes 4 tx.nonce ++ (tx.timeRange.getD TimeRange.defaultRange).as_be_bytes

/-- Cold signer recovery over the canonical bytes (the `NotCached` branch of
`Transfer::verify_signature`). -/
def coldSigner (sch : NativeSigScheme) (tx : Transfer) : Option (Nat × TxVersion) :=
  (sch.verifyMusig tx.signature tx.get_bytes).map (fun pk => (sch.pubKeyHashOf pk, .v1))

/-- `Transfer::verify_signature`: return the cache when present, otherwise recover
from the signature over the canonical bytes. -/
def verify_signature (sch : NativeSigScheme) (tx : Transfer) : Option (Nat × TxVersion) :=
  match tx.cachedSigner with
  | .cached c => c
  | .notCached => coldSigner sch tx

end Transfer

/-- Error enum of `transfer.rs` (`TransactionError`). -/
inductive TransferError
  | WrongAmount
  | AmountNotPackable
  | WrongFee
  | FeeNotPackable
  | WrongAccountId
  | WrongToken
  | WrongTimeRange
  | WrongSignature
  | WrongToAddress
  | WrongTokenForPayingFee
  | WrongGroup
  | NotAllowedSender
  | NotAllowedDestination
deriving DecidableEq

namespace Transfer

/-- The ordered early-return checks of `Transfer::check_correctness` that run before
the signature step: first failing check, if any. -/
def checkPre (cfg : ServerConfig) (senderAuth receiverAuth : Bool) (tx : Transfer) :
    Option TransferError :=
  if cfg.permissioned && !senderAuth then some .NotAllowedSender
  else if cfg.permissioned && !receiverAuth then some .NotAllowedDestination
  else if tx.amount > 2 ^ 128 - 1 then some .WrongAmount
  else if tx.fee > 2 ^ 128 - 1 then some .WrongFee
  else if !is_token_amount_packable tx.amount then some .AmountNotPackable
  else if !is_fee_amount_packable tx.fee then some .FeeNotPackable
  else if tx.accountId > max_account_id then some .WrongAccountId
  else if tx.group != cfg.serverGroupId then some .WrongGroup
  else if tx.token > max_token_id then some .WrongToken
  else if tx.toAddr == 0 then some .WrongToAddress
  else if !((tx.timeRange.map TimeRange.check_correctness).getD true) then
    some .WrongTimeRange
  else if tx.fee != 0 && tx.token > max_processable_token then
    some .WrongTokenForPayingFee
  else none

/-- `Transfer::check_correctness`: the ordered checks, then signer recovery; the
recovery result is cached on the transaction before the final signature test.
Returns the result together with the (possibly cache-updated) transaction, since
the Rust method takes `&mut self`. -/
def check_correctness (sch : NativeSigScheme) (cfg : ServerConfig)
    (senderAuth receiverAuth : Bool) (tx : Transfer) :
    Except TransferError Unit × Transfer :=
  match checkPre cfg senderAuth receiverAuth tx with
  | some e => (.error e, tx)
  | none =>
    let signer := tx.verify_signature sch
    let tx2 := { tx with cachedSigner := .cached signer }
    if signer.isNone then (.error .WrongSignature, tx2) else (.ok (), tx2)

end Transfer

/-! ## `ChangeGroup` (src/core/lib/types/src/tx/change_group.rs) -/

/-- The `ChangeGroup` transaction (group-change / cross-partition withdrawal). -/
structure ChangeGroup where
  accountId : Nat
  fromAddr : Nat
  toAddr : Nat
  token : Nat
  amount : Nat
  fee : Nat
  group1 : Nat
  group2 : Nat
  nonce : Nat
  signature : TxSignature
  cachedSigner : VerifiedSignatureCache
  fast : Bool
  timeRange : Option TimeRange
deriving DecidableEq

/-- Error enum of `change_group.rs` (`TransactionError`). -/
inductive ChangeGroupTxError
  | WrongAmount
  | AmountNotPackable
  | WrongFee
  | FeeNotPackable
  | WrongAccountId
  | WrongToken
  | WrongTimeRange
  | WrongSignature
  | WrongTokenForPayingFee
  | WrongGroup
deriving DecidableEq

namespace ChangeGroup

/-- `ChangeGroup::TX_TYPE`. -/
def TX_TYPE : Nat := 12

/-- `ChangeGroup::get_bytes`.  The amount is serialized unpacked through
`self.amount.to_u128().unwrap().to_be_bytes()`, which panics when the amount does
not fit in a `u128`; a panic is `none`.  The time-range suffix is emitted only when
the field is present. -/
def get_bytes (tx : ChangeGroup) : Option (List Nat) :=
  if tx.amount < 2 ^ 128 then
    some ([255 - TX_TYPE] ++ beBytes 4 tx.accountId ++ beBytes 20 tx.fromAddr ++
      beBytes 20 tx.toAddr ++ beBytes 4 tx.token ++ beBytes 16 tx.amount ++
      pack_fee_amount tx.fee ++ beBytes 2 tx.group1 ++ beBytes 2 tx.group2 ++
      beBytes 4 tx.nonce ++
      (match tx.timeRange with
       | some t => t.as_be_bytes
       | none => []))
  else none

/-- `ChangeGroup::verify_signature`: cache when present, otherwise cold recovery over
`get_bytes` (whose panic propagates: outer `none` is a panic). -/
def verify_signature (sch : NativeSigScheme) (tx : ChangeGroup) :
    Option (Option (Nat × TxVersion)) :=
  match tx.cachedSigner with
  | .cached c => some c
  | .notCached =>
    tx.get_bytes.map (fun bs =>
      (sch.verifyMusig tx.signature bs).map (fun pk => (sch.pubKeyHashOf pk, .v1)))

/-- The ordered early-return checks of `ChangeGroup::check_correctness` before the
signature step. -/
def checkPre (cfg : ServerConfig) (tx : ChangeGroup) : Option ChangeGroupTxError :=
  if tx.amount > 2 ^ 128 - 1 then some .WrongAmount
  else if tx.fee > 2 ^ 128 - 1 then some .WrongFee
  else if !is_fee_amount_packable tx.fee then some .FeeNotPackable
  else if tx.accountId > max_account_id then some .WrongAccountId
  else if tx.token > max_fungible_token_id then some .WrongToken
  else if tx.group1 != cfg.serverGroupId then some .WrongGroup
  else if !((tx.timeRange.map TimeRange.check_correctness).getD true) then
    some .WrongTimeRange
  else if tx.fee != 0 && tx.token > max_processable_token then
    some .WrongTokenForPayingFee
  else none

/-- `ChangeGroup::check_correctness`.  Outer `none` is a panic (propagated from a
`get_bytes` panic inside signer recovery); the result carries the possibly
cache-updated transaction. -/
def check_correctness (sch : NativeSigScheme) (cfg : ServerConfig) (tx : ChangeGroup) :
    Option (Except ChangeGroupTxError Unit × ChangeGroup) :=
  match checkPre cfg tx with
  | some e => some (.error e, tx)
  | none =>
    match tx.verify_signature sch with
    | none => none
    | some signer =>
      let tx2 := { tx with cachedSigner := .cached signer }
      some (if signer.isNone then (.error .WrongSignature, tx2) else (.ok (), tx2))

end ChangeGroup

/-! ## `ChangeGroupOp` pubdata (src/core/lib/types/src/operations/change_group_op.rs) -/

/-- `ChangeGroupOp`: the operation derived from a verified `ChangeGroup` plus the
resolved account id. -/
structure ChangeGroupOp where
  tx : ChangeGroup
  accountId : Nat
deriving DecidableEq

namespace ChangeGroupOp

/-- `ChangeGroupOp::CHUNKS`. -/
def CHUNKS : Nat := 6

/-- Modelled from the spec: `CHUNK_BYTES` from `zksync_crypto::params` (outside the
sampled sources) — the fixed chunk size in bytes of the pubdata layout. -/
def CHUNK_BYTES : Nat := 10

/-- `ChangeGroupOp::get_public_data`: op code, account id, token, unpacked amount
(via `to_u128().unwrap()`, panicking — `none` — above `u128::MAX`), packed fee,
destination address, group id, zero-padded to `CHUNKS * CHUNK_BYTES` bytes. -/
def get_public_data (op : ChangeGroupOp) : Option (List Nat) :=
  if op.tx.amount < 2 ^ 128 then
    let data := [0x0c] ++ beBytes 4 op.accountId ++ beBytes 4 op.tx.token ++
      beBytes 16 op.tx.amount ++ pack_fee_amount op.tx.fee ++
      beBytes 20 op.tx.toAddr ++ beBytes 2 op.tx.group2
    some (data ++ List.replicate (CHUNKS * CHUNK_BYTES - data.length) 0x00)
  else none

end ChangeGroupOp

/-! ## The polymorphic transaction type (src/core/lib/types/src/tx/zksync_tx.rs)

Only `Transfer` and `ChangeGroup` have their full per-kind sources in the sample;
the payloads of the remaining seven kinds are embedded with exactly the fields that
the sampled dispatch methods (`account`, `to_account`, `nonce`, the signature
checker) read. -/

/-- Modelled from the spec: the `Withdraw` kind — only the fields read by the
sampled dispatch code. -/
structure Withdraw where
  accountId : Nat
  fromAddr : Nat
  toAddr : Nat
  token : Nat
  nonce : Nat
deriving DecidableEq

/-- Modelled from the spec: the legacy `Close` kind. -/
structure Close where
  account : Nat
  nonce : Nat
deriving DecidableEq

/-- Modelled from the spec: the `ChangePubKey` kind — account id and address, new
key hash, nonce, and whether it runs in on-chain authorization mode
(`ChangePubKey::is_onchain`). -/
structure ChangePubKey where
  accountId : Nat
  account : Nat
  newPkHash : Nat
  feeToken : Nat
  nonce : Nat
  onchain : Bool
deriving DecidableEq

/-- Modelled from the spec: the `ForcedExit` kind. -/
structure ForcedExit where
  initiatorAccountId : Nat
  target : Nat
  token : Nat
  nonce : Nat
deriving DecidableEq

/-- Modelled from the spec: the `MintNFT` kind (its full source is sampled but only
these fields are read by the embedded dispatch code). -/
structure MintNFT where
  creatorId : Nat
  creatorAddress : Nat
  contentHash : Nat
  recipient : Nat
  feeToken : Nat
  nonce : Nat
deriving DecidableEq

/-- Modelled from the spec: the `Swap` kind. -/
structure Swap where
  submitterId : Nat
  submitterAddress : Nat
  feeToken : Nat
  nonce : Nat
deriving DecidableEq

/-- Modelled from the spec: the `WithdrawNFT` kind. -/
structure WithdrawNFT where
  accountId : Nat
  fromAddr : Nat
  toAddr : Nat
  token : Nat
  feeToken : Nat
  nonce : Nat
deriving DecidableEq

/-- `ZkSyncTx`: the closed set of nine transaction kinds. -/
inductive ZkSyncTx
  | transfer (tx : Transfer)
  | withdraw (tx : Withdraw)
  | close (tx : Close)
  | changePubKey (tx : ChangePubKey)
  | forcedExit (tx : ForcedExit)
  | mintNFT (tx : MintNFT)
  | swap (tx : Swap)
  | withdrawNFT (tx : WithdrawNFT)
  | changeGroup (tx : ChangeGroup)
deriving DecidableEq

namespace ZkSyncTx

/-- `ZkSyncTx::account`: the address of the account affected by the transaction. -/
def account : ZkSyncTx → Nat
  | .transfer tx => tx.fromAddr
  | .withdraw tx => tx.fromAddr
  | .close tx => tx.account
  | .changePubKey tx => tx.account
  | .forcedExit tx => tx.target
  | .swap tx => tx.submitterAddress
  | .mintNFT tx => tx.creatorAddress
  | .withdrawNFT tx => tx.fromAddr
  | .changeGroup tx => tx.fromAddr

/-- `ZkSyncTx::to_account`: the destination address (`Address::from(new_pk_hash.data)`
reinterprets the 20-byte key hash as an address, embedded as the hash value itself). -/
def to_account : ZkSyncTx → Option Nat
  | .transfer tx => some tx.toAddr
  | .withdraw tx => some tx.toAddr
  | .close tx => some tx.account
  | .changePubKey tx => some tx.newPkHash
  | .forcedExit tx => some tx.target
  | .swap tx => some tx.submitterAddress
  | .mintNFT tx => some tx.recipient
  | .withdrawNFT tx => some tx.toAddr
  | .changeGroup tx => some tx.toAddr

/-- `ZkSyncTx::nonce`. -/
def nonce : ZkSyncTx → Nat
  | .transfer tx => tx.nonce
  | .withdraw tx => tx.nonce
  | .close tx => tx.nonce
  | .changePubKey tx => tx.nonce
  | .forcedExit tx => tx.nonce
  | .mintNFT tx => tx.nonce
  | .swap tx => tx.nonce
  | .withdrawNFT tx => tx.nonce
  | .changeGroup tx => tx.nonce

/-- The content hash of the canonical bytes (`ZkSyncTx::hash`) in its `ChangeGroup`
arm, parametric in the digest function (`sha256` is a crypto primitive): a
`get_bytes` panic propagates. -/
def hashChangeGroup (digest : List Nat → List Nat) (tx : ChangeGroup) :
    Option (List Nat) :=
  tx.get_bytes.map digest

end ZkSyncTx

/-! ## Account state (src/core/lib/state) -/

/-- An account of the tree: address, nonce, and the token-id-to-balance map
(embedded as an association list; `get_balance` defaults to 0). -/
structure Account where
  address : Nat
  nonce : Nat
  balances : List (Nat × Nat)
deriving DecidableEq

namespace Account

/-- `Account::get_balance`. -/
def get_balance (a : Account) (token : Nat) : Nat :=
  ((a.balances.find? (fun p => p.1 == token)).map (fun p => p.2)).getD 0

/-- `Account::set_balance`. -/
def set_balance (a : Account) (token v : Nat) : Account :=
  { a with balances := (token, v) :: a.balances.filter (fun p => p.1 != token) }

/-- `Account::sub_balance`. -/
def sub_balance (a : Account) (token amt : Nat) : Account :=
  a.set_balance token (a.get_balance token - amt)

end Account

/-- NFT registry entry consulted by the full-group-change handler. -/
structure NftData where
  creatorId : Nat
  creatorAddress : Nat
  serialId : Nat
  contentHash : Nat
deriving DecidableEq

/-- `ZkSyncState`: the mutable account tree (id-keyed association list) plus the
NFT registry. -/
structure ZkSyncState where
  accounts : List (Nat × Account)
  nfts : List (Nat × NftData)
deriving DecidableEq

namespace ZkSyncState

/-- `ZkSyncState::get_account`. -/
def get_account (s : ZkSyncState) (id : Nat) : Option Account :=
  (s.accounts.find? (fun p => p.1 == id)).map (fun p => p.2)

/-- `ZkSyncState::get_account_by_address`. -/
def get_account_by_address (s : ZkSyncState) (addr : Nat) : Option (Nat × Account) :=
  s.accounts.find? (fun p => p.2.address == addr)

/-- `ZkSyncState::insert_account`. -/
def insert_account (s : ZkSyncState) (id : Nat) (acc : Account) : ZkSyncState :=
  { s with accounts := (id, acc) :: s.accounts.filter (fun p => p.1 != id) }

end ZkSyncState

/-- One `AccountUpdate` diff record (`AccountUpdate::UpdateBalance`). -/
inductive AccountUpdate
  | updateBalance (token oldBalance newBalance oldNonce newNonce : Nat)
deriving DecidableEq

/-- `CollectedFee`. -/
structure CollectedFee where
  token : Nat
  amount : Nat
deriving DecidableEq

/-- `ChangeGroupOpError` (src/core/lib/state/src/handler/error.rs, as used by the
sampled handler). -/
inductive ChangeGroupOpError
  | InvalidTokenId
  | InvalidFeeTokenId
  | FromAccountNotFound
  | FromAccountLocked
  | InvalidSignature
  | FromAccountIncorrect
  | NonceMismatch
  | InsufficientBalance
deriving DecidableEq

namespace ZkSyncState

/-- `TxHandler::<ChangeGroup>::apply_op` (src/core/lib/state/src/handler/change_group.rs).
Outer `none` is the `get_account(..).unwrap()` panic; otherwise the result is the
pair of the handler's `Result` (collected fee and update list on success) with the
post-state — errors leave the state untouched, since `insert_account` runs only
after every invariant check. -/
def apply_change_group_op (s : ZkSyncState) (op : ChangeGroupOp) :
    Option (Except ChangeGroupOpError (Option CollectedFee × List (Nat × AccountUpdate)) ×
      ZkSyncState) :=
  if op.accountId > max_account_id then some (.error .FromAccountIncorrect, s)
  else
    match s.get_account op.accountId with
    | none => none
    | some fromAccount =>
      let fromOldBalance := fromAccount.get_balance op.tx.token
      let fromOldNonce := fromAccount.nonce
      if op.tx.nonce != fromOldNonce then some (.error .NonceMismatch, s)
      else if fromOldBalance < op.tx.amount + op.tx.fee then
        some (.error .InsufficientBalance, s)
      else
        let acc1 := fromAccount.sub_balance op.tx.token (op.tx.amount + op.tx.fee)
        let acc2 := { acc1 with nonce := acc1.nonce + 1 }
        let fromNewBalance := acc2.get_balance op.tx.token
        let fromNewNonce := acc2.nonce
        let s2 := s.insert_account op.accountId acc2
        some (.ok (some ⟨op.tx.token, op.tx.fee⟩,
          [(op.accountId,
            .updateBalance op.tx.token fromOldBalance fromNewBalance fromOldNonce
              fromNewNonce)]), s2)

end ZkSyncState

/-! ## Full (priority) group change (src/core/lib/state/src/handler/full_change_group.rs) -/

/-- `FullChangeGroup`: the priority (administrative) group-change request. -/
structure FullChangeGroup where
  accountId : Nat
  ethAddress : Nat
  token : Nat
deriving DecidableEq

/-- `FullChangeGroupOp`. -/
structure FullChangeGroupOp where
  priorityOp : FullChangeGroup
  withdrawAmount : Option Nat
  creatorAccountId : Option Nat
  creatorAddress : Option Nat
  serialId : Option Nat
  contentHash : Option Nat
deriving DecidableEq

namespace ZkSyncState

/-- `TxHandler::<FullChangeGroup>::create_op`.  `none` is the `assert!` panic on an
out-of-range token; the withdraw amount is the account's current balance at create
time, and only for an account whose address matches the request. -/
def create_full_change_group_op (s : ZkSyncState) (priorityOp : FullChangeGroup) :
    Option FullChangeGroupOp :=
  if priorityOp.token > max_token_id then none
  else
    let accountBalance :=
      ((s.get_account priorityOp.accountId).filter
        (fun a => a.address == priorityOp.ethAddress)).map
        (fun a => a.get_balance priorityOp.token)
    if priorityOp.token > max_fungible_token_id &&
        (s.nfts.find? (fun p => p.1 == priorityOp.token)).isSome then
      match s.nfts.find? (fun p => p.1 == priorityOp.token) with
      | some (_, nft) =>
        some ⟨priorityOp, accountBalance, some nft.creatorId, some nft.creatorAddress,
          some nft.serialId, some nft.contentHash⟩
      | none => none
    else
      some ⟨priorityOp, accountBalance, none, none, none, none⟩

/-- `TxHandler::<FullChangeGroup>::apply_op`.  The error type is `Infallible`; the
only abnormal outcomes are panics (`none`): the `expect` on a missing account and
the `assert_eq!` that the post-debit balance is exactly zero.  When the create-time
lookup found no matching account (`withdraw_amount` is `None`) the operation applies
as a no-op: no fee, no updates, state unchanged. -/
def apply_full_change_group_op (s : ZkSyncState) (op : FullChangeGroupOp) :
    Option ((Option CollectedFee × List (Nat × AccountUpdate)) × ZkSyncState) :=
  match op.withdrawAmount with
  | none => some ((none, []), s)
  | some amount =>
    let accountId := op.priorityOp.accountId
    match s.get_account accountId with
    | none => none
    | some account =>
      let oldBalance := account.get_balance op.priorityOp.token
      let oldNonce := account.nonce
      let acc1 := account.sub_balance op.priorityOp.token amount
      let newBalance := acc1.get_balance op.priorityOp.token
      if newBalance != 0 then none
      else
        let newNonce := acc1.nonce
        let s2 := s.insert_account accountId acc1
        some ((none,
          [(accountId,
            .updateBalance op.priorityOp.token oldBalance newBalance oldNonce
              newNonce)]), s2)

end ZkSyncState

/-! ## Signature checker (src/core/bin/zksync_api/src/signature_checker.rs)

Worker outcomes are three-valued: a panic (from an `expect` on an oracle failure),
a `TxAddError` rejection, or success.  The base-chain crypto primitive
(`PackedEthSignature::signature_recover_signer`) and the three oracle queries of
`EthereumChecker` are parameters of the model. -/

/-- `TxAddError` variants surfaced by the sampled checker code. -/
inductive TxAddError
  | IncorrectEthSignature
  | ChangePkNotAuthorized
  | UserNotWhitelisted
  | IncorrectTx
  | Other
deriving DecidableEq

/-- Outcome of a verification worker: `panic` (the task dies, nothing is sent on the
reply channel), `fail e` (a `TxAddError` rejection is sent), or `done a`. -/
inductive VOut (α : Type)
  | panic
  | fail (e : TxAddError)
  | done (a : α)
deriving DecidableEq

def VOut.bind : VOut α → (α → VOut β) → VOut β
  | .panic, _ => .panic
  | .fail e, _ => .fail e
  | .done a, f => f a

/-- Whether an outcome is a rejection delivered as an error result. -/
def VOut.isFail : VOut α → Bool
  | .fail _ => true
  | _ => false

/-- `TxEthSignature`: the recoverable form or the delegated-contract (EIP-1271) form. -/
inductive TxEthSignature
  | ethereumSignature (sig : Nat)
  | eip1271Signature (sig : Nat)
deriving DecidableEq

/-- `EthSignData`: base-chain signature plus the signed message. -/
structure EthSignData where
  signature : TxEthSignature
  message : List Nat
deriving DecidableEq

/-- `EthBatchSignData`: the aggregated batch signature set and the shared message. -/
structure EthBatchSignData where
  signatures : List TxEthSignature
  message : List Nat
deriving DecidableEq

/-- `SignedZkSyncTx`: transaction plus optional base-chain sign data and the
creation timestamp (latency accounting only). -/
structure SignedZkSyncTx where
  tx : ZkSyncTx
  ethSignData : Option EthSignData
  createdAt : Nat
deriving DecidableEq

/-- Modelled from the spec: the resource-order kind (`zksync_types::Order` is outside
the sampled sources); the sampled checker never inspects its fields. -/
structure Order where
  accountId : Nat
  nonce : Nat
deriving DecidableEq

/-- The three oracle queries of `EthereumChecker` (src/core/bin/zksync_api/src/eth_checker.rs,
outside the sampled sources): each is a network call that may fail to reach the
oracle (`Except.error`) or answer with a boolean verdict. -/
structure EthereumChecker where
  isEip1271SignatureCorrect : Nat → List Nat → Nat → Except Unit Bool
  isNewPubkeyHashAuthorized : Nat → Nat → Nat → Except Unit Bool
  isUserAllowedToTransferToThisGroup : Nat → Nat → Except Unit Bool

/-- The pure base-chain recovery primitive
(`PackedEthSignature::signature_recover_signer`). -/
def RecoverSigner : Type := Nat → List Nat → Except Unit Nat

/-- `verify_ethereum_signature`: recoverable signatures compare the recovered address
with the expected sender (a recovery error is just `false`); EIP-1271 signatures
defer to the oracle, and an oracle failure hits
`.expect("Unable to check EIP1271 signature")` — a panic, embedded as `none`. -/
def verify_ethereum_signature (rec : RecoverSigner) (checker : EthereumChecker)
    (ethSignature : TxEthSignature) (message : List Nat) (senderAddress : Nat) :
    Option Bool :=
  match ethSignature with
  | .ethereumSignature s =>
    match rec s message with
    | .ok addr => some (addr == senderAddress)
    | .error _ => some false
  | .eip1271Signature s =>
    match checker.isEip1271SignatureCorrect senderAddress message s with
    | .ok b => some b
    | .error _ => none

/-- `verify_eth_signature_single_tx`: the on-chain `ChangePubKey` authorization
check, the `ChangeGroup` group-transfer authorization check (both `expect` on an
oracle failure — panic), then the message-signature check when sign data is
attached. -/
def verify_eth_signature_single_tx (rec : RecoverSigner) (checker : EthereumChecker)
    (tx : SignedZkSyncTx) (senderAddress : Nat) : VOut Unit :=
  (match tx.tx with
    | .changePubKey changePk =>
      if changePk.onchain then
        match checker.isNewPubkeyHashAuthorized changePk.accountId changePk.nonce
            changePk.newPkHash with
        | .error _ => VOut.panic
        | .ok true => VOut.done ()
        | .ok false => VOut.fail .ChangePkNotAuthorized
      else VOut.done ()
    | _ => VOut.done ()).bind fun _ =>
  (match tx.tx with
    | .changeGroup changeGroup =>
      match checker.isUserAllowedToTransferToThisGroup changeGroup.group2
          changeGroup.toAddr with
      | .error _ => VOut.panic
      | .ok true => VOut.done ()
      | .ok false => VOut.fail .UserNotWhitelisted
    | _ => VOut.done ()).bind fun _ =>
  match tx.ethSignData with
  | some signData =>
    match verify_ethereum_signature rec checker signData.signature signData.message
        senderAddress with
    | none => VOut.panic
    | some true => VOut.done ()
    | some false => VOut.fail .IncorrectEthSignature
  | none => VOut.done ()

/-- Inner loop of the batch matcher: scan the candidate signatures in the order
supplied until one recovers to the current sender (`some true`), report `some false`
when none does, and propagate a panic (`none`) from a delegated-signature oracle
failure. -/
def scanSignatures (rec : RecoverSigner) (checker : EthereumChecker)
    (message : List Nat) (sender : Nat) : List TxEthSignature → Option Bool
  | [] => some false
  | s :: rest =>
    match verify_ethereum_signature rec checker s message sender with
    | none => none
    | some true => some true
    | some false => scanSignatures rec checker message sender rest

/-- Outer loop of `verify_eth_signature_txs_batch` over the senders in original
order, carrying the set of already-matched senders (a list that only ever receives
senders not yet present, so its length is the number of distinct matched senders). -/
def batchLoop (rec : RecoverSigner) (checker : EthereumChecker)
    (signatures : List TxEthSignature) (message : List Nat) :
    List Nat → List Nat → VOut Unit
  | [], _ => VOut.done ()
  | sender :: rest, signers =>
    if signers.contains sender then batchLoop rec checker signatures message rest signers
    else if signers.length == signatures.length then VOut.fail .IncorrectEthSignature
    else
      match scanSignatures rec checker message sender signatures with
      | none => VOut.panic
      | some true => batchLoop rec checker signatures message rest (sender :: signers)
      | some false => VOut.fail .IncorrectEthSignature

/-- `verify_eth_signature_txs_batch`: the greedy pigeonhole sender/signature
matcher, started with an empty matched set. -/
def verify_eth_signature_txs_batch (rec : RecoverSigner) (checker : EthereumChecker)
    (senders : List Nat) (batchSignData : EthBatchSignData) : VOut Unit :=
  batchLoop rec checker batchSignData.signatures batchSignData.message senders []

/-- `TxRequest`. -/
structure TxRequest where
  tx : SignedZkSyncTx
  sender : Nat
  token : Nat
deriving DecidableEq

/-- `BatchRequest`. -/
structure BatchRequest where
  txs : List SignedZkSyncTx
  batchSignData : Option EthBatchSignData
  senders : List Nat
  tokens : List Nat
deriving DecidableEq

/-- `OrderRequest`. -/
structure OrderRequest where
  order : Order
  signData : EthSignData
  sender : Nat
deriving DecidableEq

/-- `Toggle2FARequest`. -/
structure Toggle2FARequest where
  signData : EthSignData
  sender : Nat
deriving DecidableEq

/-- `RequestData`. -/
inductive RequestData
  | tx (r : TxRequest)
  | batch (r : BatchRequest)
  | order (r : OrderRequest)
  | toggle2FA (r : Toggle2FARequest)
deriving DecidableEq

/-- `TxVariant`. -/
inductive TxVariant
  | tx (t : SignedZkSyncTx)
  | batch (txs : List SignedZkSyncTx) (sig : Option EthBatchSignData)
  | order (o : Order)
  | toggle2FA
deriving DecidableEq

/-- `RequestData::get_tx_variant`. -/
def RequestData.get_tx_variant : RequestData → TxVariant
  | .tx r => .tx r.tx
  | .batch r => .batch r.txs r.batchSignData
  | .order r => .order r.order
  | .toggle2FA _ => .toggle2FA

/-- Per-transaction recheck pass of the batch arm of `verify_eth_signature`
(each member is rechecked individually even after a batch-signature match). -/
def batchSinglesPass (rec : RecoverSigner) (checker : EthereumChecker) :
    List (SignedZkSyncTx × Nat) → VOut Unit
  | [] => VOut.done ()
  | (tx, sender) :: rest =>
    (verify_eth_signature_single_tx rec checker tx sender).bind fun _ =>
      batchSinglesPass rec checker rest

/-- `verify_eth_signature`: dispatch over the request shape; the batch arm first
enforces the senders/transactions length match, then the aggregated-signature
matcher when batch sign data is present, then the unconditional per-transaction
recheck. -/
def verify_eth_signature (rec : RecoverSigner) (checker : EthereumChecker) :
    RequestData → VOut Unit
  | .tx r => verify_eth_signature_single_tx rec checker r.tx r.sender
  | .batch r =>
    if r.senders.length != r.txs.length then VOut.fail .Other
    else
      (match r.batchSignData with
        | some batchSignData =>
          verify_eth_signature_txs_batch rec checker r.senders batchSignData
        | none => VOut.done ()).bind fun _ =>
      batchSinglesPass rec checker (r.txs.zip r.senders)
  | .order r =>
    match verify_ethereum_signature rec checker r.signData.signature r.signData.message
        r.sender with
    | none => VOut.panic
    | some true => VOut.done ()
    | some false => VOut.fail .IncorrectEthSignature
  | .toggle2FA r =>
    match verify_ethereum_signature rec checker r.signData.signature r.signData.message
        r.sender with
    | none => VOut.panic
    | some true => VOut.done ()
    | some false => VOut.fail .IncorrectEthSignature

/-- `VerifiedTx`: the wrapper only the verification routine constructs. -/
structure VerifiedTx where
  variant : TxVariant
deriving DecidableEq

/-- Receiver resolution performed inside `verify_tx_correctness`:
`tx.tx.to_account().unwrap()` — `unwrap` on `None` is a panic. -/
def resolveReceiver (tx : ZkSyncTx) : VOut Nat :=
  match tx.to_account with
  | some a => VOut.done a
  | none => VOut.panic

/-- `VerifiedTx::verify`, parametric in the native/business-rule stage
(`verify_tx_correctness`, whose per-kind checks and storage lookups the second
stage performs): the base-chain stage runs first and the native stage receives the
variant only when the base-chain stage succeeded. -/
def VerifiedTx.verify (rec : RecoverSigner) (checker : EthereumChecker)
    (nativeCheck : TxVariant → VOut TxVariant) (data : RequestData) : VOut VerifiedTx :=
  (verify_eth_signature rec checker data).bind fun _ =>
    (nativeCheck data.get_tx_variant).bind fun v => VOut.done ⟨v⟩

/-! ## A decoder for the `ChangeGroup` canonical byte layout

Used to settle injectivity of the encoding: decoding is a left inverse of
`ChangeGroup::get_bytes` on the fields that the layout serializes. -/

/-- Read a `k`-byte big-endian integer off the front of a byte list. -/
def readBE (k : Nat) (l : List Nat) : Nat × List Nat :=
  (fromBytesBE (l.take k), l.drop k)

/-- The field values that the `ChangeGroup` canonical layout serializes (everything
except `fast`, the signature and the signature cache). -/
structure CGFields where
  accountId : Nat
  fromAddr : Nat
  toAddr : Nat
  token : Nat
  amount : Nat
  fee : Nat
  group1 : Nat
  group2 : Nat
  nonce : Nat
  timeRange : Option TimeRange
deriving DecidableEq

/-- Projection of a `ChangeGroup` to its serialized field values. -/
def ChangeGroup.serializedFields (tx : ChangeGroup) : CGFields :=
  ⟨tx.accountId, tx.fromAddr, tx.toAddr, tx.token, tx.amount, tx.fee, tx.group1,
    tx.group2, tx.nonce, tx.timeRange⟩

/-- Decoder for the `ChangeGroup` canonical byte layout. -/
def decodeChangeGroupBytes (l : List Nat) : Option CGFields :=
  match l with
  | [] => none
  | t :: r0 =>
    if t != 243 then none
    else
      let p1 := readBE 4 r0
      let p2 := readBE 20 p1.2
      let p3 := readBE 20 p2.2
      let p4 := readBE 4 p3.2
      let p5 := readBE 16 p4.2
      match unpack_fee_amount (p5.2.take 2) with
      | none => none
      | some fee =>
        let p7 := readBE 2 (p5.2.drop 2)
        let p8 := readBE 2 p7.2
        let p9 := readBE 4 p8.2
        if p9.2.length == 0 then
          some ⟨p1.1, p2.1, p3.1, p4.1, p5.1, fee, p7.1, p8.1, p9.1, none⟩
        else if p9.2.length == 16 then
          some ⟨p1.1, p2.1, p3.1, p4.1, p5.1, fee, p7.1, p8.1, p9.1,
            some ⟨fromBytesBE (p9.2.take 8), fromBytesBE (p9.2.drop 8)⟩⟩
        else none

/-- Width bounds on the serialized fields of a `ChangeGroup` (the integer types of
the Rust fields), together with packability of the fee. -/
def ChangeGroup.fieldsInRange (tx : ChangeGroup) : Bool :=
  decide (tx.accountId < 2 ^ 32) && decide (tx.fromAddr < 2 ^ 160) &&
  decide (tx.toAddr < 2 ^ 160) && decide (tx.token < 2 ^ 32) &&
  decide (tx.amount < 2 ^ 128) && is_fee_amount_packable tx.fee &&
  decide (tx.group1 < 2 ^ 16) && decide (tx.group2 < 2 ^ 16) &&
  decide (tx.nonce < 2 ^ 32) &&
  (match tx.timeRange with
   | none => true
   | some t => decide (t.validFrom < 2 ^ 64) && decide (t.validUntil < 2 ^ 64))

/-! ## Concrete fixtures for examples, counterexamples and witnesses -/

/-- A concrete recovery primitive: the signature value recovers to the address with
the same value, so `ethereumSignature a` plays the role of `sig_a`. -/
def recoverId : RecoverSigner := fun s _ => .ok s

/-- A concrete unreachable oracle: every query fails to contact the base chain. -/
def checkerAllErr : EthereumChecker :=
  ⟨fun _ _ _ => .error (), fun _ _ _ => .error (), fun _ _ => .error ()⟩

/-- A concrete always-negative oracle: every query reaches the base chain and
answers `false`. -/
def checkerAllFalse : EthereumChecker :=
  ⟨fun _ _ _ => .ok false, fun _ _ _ => .ok false, fun _ _ => .ok false⟩

/-- Cache consistency invariant of the data model: an attached signer-recovery
cache, if any, holds exactly the cold recovery over the canonical bytes (the only
writers — `Transfer::new` and `check_correctness` — store cold recoveries). -/
def Transfer.cacheConsistent (sch : NativeSigScheme) (tx : Transfer) : Prop :=
  tx.cachedSigner = .notCached ∨ tx.cachedSigner = .cached (Transfer.coldSigner sch tx)

/-- A concrete in-range `ChangeGroup` transaction. -/
def cgSample : ChangeGroup :=
  ⟨1, 2, 3, 1, 5, 0, 0, 1, 0, ⟨0⟩, .notCached, false, some ⟨0, 100⟩⟩

/-- The same transaction with only the `fast` field flipped. -/
def cgSampleFast : ChangeGroup :=
  { cgSample with fast := true }

/-- A concrete account: address 77, nonce 5, balance 100 of token 1. -/
def accW : Account := ⟨77, 5, [(1, 100)]⟩

/-- A concrete account tree holding `accW` at id 3. -/
def stateW : ZkSyncState := ⟨[(3, accW)], []⟩

/-- A concrete `ChangeGroup` transaction by account 3: amount 40 + fee 10 of
token 1 at nonce 5. -/
def cgTxW : ChangeGroup := ⟨3, 77, 9, 1, 40, 10, 0, 1, 5, ⟨0⟩, .notCached, false, none⟩

/-- The operation for `cgTxW`. -/
def cgOpW : ChangeGroupOp := ⟨cgTxW, 3⟩

/-- The same operation presented at the wrong nonce 6. -/
def cgOpWrongNonce : ChangeGroupOp := ⟨{ cgTxW with nonce := 6 }, 3⟩

/-- The same operation with amount 95 (95 + 10 exceeds the balance 100). -/
def cgOpPoor : ChangeGroupOp := ⟨{ cgTxW with amount := 95 }, 3⟩

/-- A concrete full group-change request for account 3 / address 77 / token 1. -/
def fcgW : FullChangeGroup := ⟨3, 77, 1⟩

/-- A concrete native signature scheme: the signature bundle recovers to the
public key with the signature's value, hashed to itself. -/
def schW : NativeSigScheme := ⟨fun sg _ => some sg.sig, fun pk => pk⟩

/-- A concrete server configuration: group 0, permissionless. -/
def cfgW : ServerConfig := ⟨0, false⟩

/-- A concrete `Transfer` at nonce 5 with packable amount 40 and fee 10. -/
def trTxW : Transfer := ⟨2, 50, 60, 1, 40, 10, 0, 5, some ⟨0, 100⟩, ⟨0⟩, .notCached⟩

/-- A concrete on-chain mode `ChangePubKey`. -/
def cpkW : ChangePubKey := ⟨4, 88, 99, 0, 7, true⟩

/-- `cpkW` wrapped as a signed transaction without sign data. -/
def signedCpkW : SignedZkSyncTx := ⟨.changePubKey cpkW, none, 0⟩

/-! ## Helper lemmas -/

theorem length_beBytes (k n : Nat) : (beBytes k n).length = k := by
  induction k generalizing n with
  | zero => rfl
  | succ k ih => simp [beBytes, ih]

theorem fromBytesBE_append (l₁ l₂ : List Nat) :
    fromBytesBE (l₁ ++ l₂) = l₂.foldl (fun a b => a * 256 + b) (fromBytesBE l₁) := by
  simp [fromBytesBE, List.foldl_append]

theorem fromBytesBE_beBytes (k n : Nat) (h : n < 2 ^ (8 * k)) :
    fromBytesBE (beBytes k n) = n := by
  induction k generalizing n with
  | zero =>
    simp only [Nat.mul_zero, Nat.pow_zero, Nat.lt_one_iff] at h
    simp [beBytes, fromBytesBE, h]
  | succ k ih =>
    have hdiv : n / 256 < 2 ^ (8 * k) := by
      apply Nat.div_lt_of_lt_mul
      calc n < 2 ^ (8 * (k + 1)) := h
        _ = 256 * 2 ^ (8 * k) := by
          rw [show 8 * (k + 1) = 8 + 8 * k by ring, pow_add]
          norm_num
    have ihd := ih (n / 256) hdiv
    show fromBytesBE (beBytes k (n / 256) ++ [n % 256]) = n
    rw [fromBytesBE_append]
    simp only [List.foldl_cons, List.foldl_nil]
    rw [ihd]
    omega

theorem Account.get_balance_set_balance (a : Account) (token v : Nat) :
    (a.set_balance token v).get_balance token = v := by
  simp [Account.get_balance, Account.set_balance, List.find?]

theorem ZkSyncState.get_account_insert_account (s : ZkSyncState) (id : Nat)
    (acc : Account) : (s.insert_account id acc).get_account id = some acc := by
  simp [ZkSyncState.get_account, ZkSyncState.insert_account, List.find?]

theorem take_len_append (l₁ l₂ : List Nat) : (l₁ ++ l₂).take l₁.length = l₁ := by
  simp

theorem drop_len_append (l₁ l₂ : List Nat) : (l₁ ++ l₂).drop l₁.length = l₂ := by
  simp

theorem readBE_append (k n : Nat) (rest : List Nat) (h : n < 2 ^ (8 * k)) :
    readBE k (beBytes k n ++ rest) = (n, rest) := by
  have hl : (beBytes k n).length = k := length_beBytes k n
  simp only [readBE, List.take_left' hl, List.drop_left' hl, fromBytesBE_beBytes k n h]

theorem readBE_beBytes (k n : Nat) (h : n < 2 ^ (8 * k)) :
    readBE k (beBytes k n) = (n, []) := by
  simpa using readBE_append k n [] h

theorem unpack_pack_fee (f : Nat) (h : is_fee_amount_packable f = true) :
    unpack_fee_amount (pack_fee_amount f) = some f := by
  simpa [is_fee_amount_packable] using h

theorem pack_fee_amount_length (f : Nat) (h : is_fee_amount_packable f = true) :
    (pack_fee_amount f).length = 2 := by
  have hu := unpack_pack_fee f h
  unfold pack_fee_amount at hu ⊢
  match hc : convertToFloat 5 11 f with
  | some (e, m) => simp [length_beBytes]
  | none => rw [hc] at hu; simp [unpack_fee_amount] at hu

/-- Decoding is a left inverse of the canonical `ChangeGroup` encoding on in-range
transactions. -/
theorem decode_changeGroup_get_bytes (tx : ChangeGroup) (bs : List Nat)
    (h : tx.fieldsInRange = true) (hbs : tx.get_bytes = some bs) :
    decodeChangeGroupBytes bs = some tx.serializedFields := by
  simp only [ChangeGroup.fieldsInRange, Bool.and_eq_true, decide_eq_true_eq] at h
  obtain ⟨⟨⟨⟨⟨⟨⟨⟨⟨h1, h2⟩, h3⟩, h4⟩, h5⟩, h6⟩, h7⟩, h8⟩, h9⟩, h10⟩ := h
  rw [ChangeGroup.get_bytes, if_pos h5, Option.some.injEq] at hbs
  subst hbs
  have hfeelen := pack_fee_amount_length tx.fee h6
  have hfee := unpack_pack_fee tx.fee h6
  have tk : ∀ rest : List Nat,
      (pack_fee_amount tx.fee ++ rest).take 2 = pack_fee_amount tx.fee :=
    fun rest => List.take_left' hfeelen
  have dr : ∀ rest : List Nat, (pack_fee_amount tx.fee ++ rest).drop 2 = rest :=
    fun rest => List.drop_left' hfeelen
  have b1 : tx.accountId < 2 ^ (8 * 4) := by simpa using h1
  have b2 : tx.fromAddr < 2 ^ (8 * 20) := by simpa using h2
  have b3 : tx.toAddr < 2 ^ (8 * 20) := by simpa using h3
  have b4 : tx.token < 2 ^ (8 * 4) := by simpa using h4
  have b5 : tx.amount < 2 ^ (8 * 16) := by simpa using h5
  have b7 : tx.group1 < 2 ^ (8 * 2) := by simpa using h7
  have b8 : tx.group2 < 2 ^ (8 * 2) := by simpa using h8
  have b9 : tx.nonce < 2 ^ (8 * 4) := by simpa using h9
  cases htr : tx.timeRange with
  | none =>
    simp [decodeChangeGroupBytes, ChangeGroup.TX_TYPE, ChangeGroup.serializedFields,
      readBE_append _ _ _ b1, readBE_append _ _ _ b2, readBE_append _ _ _ b3,
      readBE_append _ _ _ b4, readBE_append _ _ _ b5, readBE_append _ _ _ b7,
      readBE_append _ _ _ b8, readBE_append _ _ _ b9, readBE_beBytes _ _ b9, tk, dr,
      hfee, htr]
  | some t =>
    rw [htr] at h10
    obtain ⟨h10a, h10b⟩ : t.validFrom < 2 ^ 64 ∧ t.validUntil < 2 ^ 64 := by
      simpa using h10
    have b10a : t.validFrom < 2 ^ (8 * 8) := by simpa using h10a
    have b10b : t.validUntil < 2 ^ (8 * 8) := by simpa using h10b
    have hfl : (beBytes 8 t.validFrom).length = 8 := length_beBytes _ _
    have tk8 : (TimeRange.as_be_bytes t).take 8 = beBytes 8 t.validFrom :=
      List.take_left' hfl
    have dr8 : (TimeRange.as_be_bytes t).drop 8 = beBytes 8 t.validUntil :=
      List.drop_left' hfl
    have hlen16 : (TimeRange.as_be_bytes t).length = 16 := by
      simp [TimeRange.as_be_bytes, length_beBytes]
    simp [decodeChangeGroupBytes, ChangeGroup.TX_TYPE, ChangeGroup.serializedFields,
      readBE_append _ _ _ b1, readBE_append _ _ _ b2, readBE_append _ _ _ b3,
      readBE_append _ _ _ b4, readBE_append _ _ _ b5, readBE_append _ _ _ b7,
      readBE_append _ _ _ b8, readBE_append _ _ _ b9, tk, dr, hfee, htr, hlen16,
      tk8, dr8, fromBytesBE_beBytes 8 t.validFrom b10a,
      fromBytesBE_beBytes 8 t.validUntil b10b]

theorem Account.get_balance_nonce_mk (a : Account) (n t : Nat) :
    (Account.mk a.address n a.balances).get_balance t = a.get_balance t := rfl

theorem Account.nonce_set_balance (a : Account) (t v : Nat) :
    (a.set_balance t v).nonce = a.nonce := rfl

theorem Account.nonce_sub_balance (a : Account) (t m : Nat) :
    (a.sub_balance t m).nonce = a.nonce := rfl

/-! ## Claim theorems -/

/-- C10: for every variant of the polymorphic transaction type, `to_account`
returns `Some`, so the unconditional `unwrap` of `to_account` performed on each
transaction inside the verification routine's correctness pass can never panic. -/
theorem C10_to_account_never_none (tx : ZkSyncTx) :
    tx.to_account.isSome = true ∧ resolveReceiver tx ≠ VOut.panic := by
  cases tx <;> simp [ZkSyncTx.to_account, resolveReceiver]

/-- C2: a group-change operation applied at the account's current nonce with
sufficient balance debits exactly `amount + fee`, increments the nonce by exactly
one, emits exactly one `AccountUpdate` recording the old/new balance and old/new
nonce, and emits a `CollectedFee` equal to the transaction's fee in the
transaction's token. -/
theorem C2_change_group_apply_op_success (s : ZkSyncState) (op : ChangeGroupOp)
    (acc : Account)
    (hacc : s.get_account op.accountId = some acc)
    (hid : op.accountId ≤ max_account_id)
    (hnonce : op.tx.nonce = acc.nonce)
    (hbal : op.tx.amount + op.tx.fee ≤ acc.get_balance op.tx.token) :
    ∃ s2,
      s.apply_change_group_op op =
        some (.ok (some ⟨op.tx.token, op.tx.fee⟩,
          [(op.accountId,
            .updateBalance op.tx.token (acc.get_balance op.tx.token)
              (acc.get_balance op.tx.token - (op.tx.amount + op.tx.fee))
              acc.nonce (acc.nonce + 1))]), s2) ∧
      (s2.get_account op.accountId).map
          (fun a => (a.get_balance op.tx.token, a.nonce)) =
        some (acc.get_balance op.tx.token - (op.tx.amount + op.tx.fee),
          acc.nonce + 1) ∧
      acc.get_balance op.tx.token - (op.tx.amount + op.tx.fee) +
          (op.tx.amount + op.tx.fee) =
        acc.get_balance op.tx.token := by
  have hgt : ¬ (op.accountId > max_account_id) := by omega
  have hlt : ¬ (acc.get_balance op.tx.token < op.tx.amount + op.tx.fee) := by omega
  refine ⟨s.insert_account op.accountId
    { acc.sub_balance op.tx.token (op.tx.amount + op.tx.fee) with
      nonce := (acc.sub_balance op.tx.token (op.tx.amount + op.tx.fee)).nonce + 1 },
    ?_, ?_, Nat.sub_add_cancel hbal⟩
  · unfold ZkSyncState.apply_change_group_op
    rw [if_neg hgt, hacc]
    simp [hnonce, hlt, Account.sub_balance, Account.get_balance_set_balance,
      Account.get_balance_nonce_mk, Account.nonce_set_balance]
  · rw [ZkSyncState.get_account_insert_account]
    simp [Account.sub_balance, Account.get_balance_set_balance,
      Account.get_balance_nonce_mk, Account.nonce_set_balance]

/-- C3: `apply_op` is atomic on error — a nonce mismatch yields the nonce-mismatch
error, and a correct nonce with balance below `amount + fee` yields the
insufficient-balance error; in both cases no `AccountUpdate` is emitted and the
state (balance and nonce included) is returned unchanged. -/
theorem C3_change_group_apply_op_errors (s : ZkSyncState) (op : ChangeGroupOp)
    (acc : Account)
    (hacc : s.get_account op.accountId = some acc)
    (hid : op.accountId ≤ max_account_id) :
    (op.tx.nonce ≠ acc.nonce →
      s.apply_change_group_op op = some (.error .NonceMismatch, s)) ∧
    (op.tx.nonce = acc.nonce →
      acc.get_balance op.tx.token < op.tx.amount + op.tx.fee →
      s.apply_change_group_op op = some (.error .InsufficientBalance, s)) := by
  have hgt : ¬ (op.accountId > max_account_id) := by omega
  constructor
  · intro hne
    unfold ZkSyncState.apply_change_group_op
    rw [if_neg hgt, hacc]
    simp [hne]
  · intro heq hlt
    unfold ZkSyncState.apply_change_group_op
    rw [if_neg hgt, hacc]
    simp [heq, hlt]

/-- C4: the priority/administrative full group-change operation produced by
`create_op` debits, at apply time, the account's entire create-time balance in the
operation's token (computed from account state, not user input); the asserted
postcondition that the resulting balance is exactly zero holds, one
`AccountUpdate` is emitted, the nonce is unchanged, and no `CollectedFee` is
emitted.  When the account does not exist or its address does not match, nothing
is debited and no update is emitted. -/
theorem C4_full_change_group_drains_balance (s : ZkSyncState)
    (tx : FullChangeGroup) (op : FullChangeGroupOp)
    (htok : tx.token ≤ max_token_id)
    (hop : s.create_full_change_group_op tx = some op) :
    (∀ acc : Account,
      (s.get_account tx.accountId).filter (fun a => a.address == tx.ethAddress) =
        some acc →
      ∃ s2,
        s.apply_full_change_group_op op =
          some ((none,
            [(tx.accountId,
              .updateBalance tx.token (acc.get_balance tx.token) 0 acc.nonce
                acc.nonce)]), s2) ∧
        (s2.get_account tx.accountId).map
            (fun a => (a.get_balance tx.token, a.nonce)) =
          some (0, acc.nonce)) ∧
    ((s.get_account tx.accountId).filter (fun a => a.address == tx.ethAddress) =
        none →
      s.apply_full_change_group_op op = some ((none, []), s)) := by
  have hgt : ¬ (tx.token > max_token_id) := by omega
  have hfields : op.priorityOp = tx ∧
      op.withdrawAmount =
        ((s.get_account tx.accountId).filter
          (fun a => a.address == tx.ethAddress)).map
          (fun a => a.get_balance tx.token) := by
    unfold ZkSyncState.create_full_change_group_op at hop
    rw [if_neg hgt] at hop
    split at hop
    · split at hop
      · cases hop
        exact ⟨rfl, rfl⟩
      · simp at hop
    · cases hop
      exact ⟨rfl, rfl⟩
  obtain ⟨hprio, hamount⟩ := hfields
  constructor
  · intro acc hfilter
    have hget : s.get_account tx.accountId = some acc := by
      rcases h : s.get_account tx.accountId with _ | a
      · rw [h] at hfilter; simp [Option.filter] at hfilter
      · rw [h] at hfilter
        simp only [Option.filter] at hfilter
        split at hfilter
        · exact congrArg some (Option.some.inj hfilter)
        · exact absurd hfilter (by simp)
    refine ⟨s.insert_account tx.accountId
      (acc.sub_balance tx.token (acc.get_balance tx.token)), ?_, ?_⟩
    · unfold ZkSyncState.apply_full_change_group_op
      rw [hamount, hfilter]
      simp only [Option.map_some]
      rw [hprio, hget]
      simp [Account.sub_balance, Account.get_balance_set_balance,
        Account.nonce_set_balance]
    · rw [ZkSyncState.get_account_insert_account]
      simp [Account.sub_balance, Account.get_balance_set_balance,
        Account.nonce_set_balance]
  · intro hfilter
    unfold ZkSyncState.apply_full_change_group_op
    rw [hamount, hfilter]
    rfl

/-- C9: the canonical `ChangeGroup` byte encoding is not total — an amount above
`u128::MAX` makes `get_bytes` (and with it the pubdata rendering and the content
hash) panic instead of returning a value, while `check_correctness` rejects such a
transaction with `WrongAmount` before ever serializing it (no panic, transaction
returned untouched); below the bound `get_bytes` always returns a value. -/
theorem C9_get_bytes_partial_above_u128 :
    (∀ tx : ChangeGroup, 2 ^ 128 ≤ tx.amount → tx.get_bytes = none) ∧
    (∀ op : ChangeGroupOp, 2 ^ 128 ≤ op.tx.amount → op.get_public_data = none) ∧
    (∀ (digest : List Nat → List Nat) (tx : ChangeGroup), 2 ^ 128 ≤ tx.amount →
      ZkSyncTx.hashChangeGroup digest tx = none) ∧
    (∀ (sch : NativeSigScheme) (cfg : ServerConfig) (tx : ChangeGroup),
      2 ^ 128 ≤ tx.amount →
      tx.check_correctness sch cfg = some (.error .WrongAmount, tx)) ∧
    (∀ tx : ChangeGroup, tx.amount < 2 ^ 128 → tx.get_bytes.isSome = true) := by
  refine ⟨?_, ?_, ?_, ?_, ?_⟩
  · intro tx h
    unfold ChangeGroup.get_bytes
    rw [if_neg (by omega)]
  · intro op h
    unfold ChangeGroupOp.get_public_data
    rw [if_neg (by omega)]
  · intro digest tx h
    unfold ZkSyncTx.hashChangeGroup ChangeGroup.get_bytes
    rw [if_neg (by omega)]
    rfl
  · intro sch cfg tx h
    have hpre : tx.checkPre cfg = some .WrongAmount := by
      unfold ChangeGroup.checkPre
      rw [if_pos (by omega)]
    simp [ChangeGroup.check_correctness, hpre]
  · intro tx h
    unfold ChangeGroup.get_bytes
    rw [if_pos h]
    rfl

/-- C6: the two authentication stages are sequential — whenever the base-chain
stage rejects with an error, the overall result is exactly that error for every
possible behavior of the native/business-rule stage (so the native stage is never
consulted), and no `VerifiedTx` is ever produced. -/
theorem C6_base_chain_failure_short_circuits (rec : RecoverSigner)
    (checker : EthereumChecker) (data : RequestData) (e : TxAddError)
    (h : verify_eth_signature rec checker data = .fail e) :
    ∀ nativeCheck : TxVariant → VOut TxVariant,
      VerifiedTx.verify rec checker nativeCheck data = .fail e ∧
      ∀ v : VerifiedTx, VerifiedTx.verify rec checker nativeCheck data ≠ .done v := by
  intro nc
  constructor
  · simp [VerifiedTx.verify, h, VOut.bind]
  · intro v
    simp [VerifiedTx.verify, h, VOut.bind]

/-- C1: the batch sender/signature matcher is the greedy pigeonhole algorithm —
senders are processed in original order; an already-matched sender is skipped; when
the count of distinct matched senders already equals the signature count the whole
batch fails immediately (regardless of the signatures' content); otherwise the
candidate signatures are scanned in the order supplied, the sender is marked
matched at the first signature recovering to it, and the batch fails when none
does.  Concretely, senders `[A, A, B]` with signatures `[sig_B, sig_A]` succeed,
and senders `[A, B, C]` with only two signatures fail once `C` is reached. -/
theorem C1_batch_matching_greedy_pigeonhole :
    (∀ (rec : RecoverSigner) (checker : EthereumChecker)
        (sigs : List TxEthSignature) (msg : List Nat) (sender : Nat)
        (rest signers : List Nat),
      signers.contains sender = true →
      batchLoop rec checker sigs msg (sender :: rest) signers =
        batchLoop rec checker sigs msg rest signers) ∧
    (∀ (rec : RecoverSigner) (checker : EthereumChecker)
        (sigs : List TxEthSignature) (msg : List Nat) (sender : Nat)
        (rest signers : List Nat),
      signers.contains sender = false → signers.length = sigs.length →
      batchLoop rec checker sigs msg (sender :: rest) signers =
        VOut.fail .IncorrectEthSignature) ∧
    (∀ (rec : RecoverSigner) (checker : EthereumChecker)
        (sigs : List TxEthSignature) (msg : List Nat) (sender : Nat)
        (rest signers : List Nat),
      signers.contains sender = false → signers.length ≠ sigs.length →
      scanSignatures rec checker msg sender sigs = some true →
      batchLoop rec checker sigs msg (sender :: rest) signers =
        batchLoop rec checker sigs msg rest (sender :: signers)) ∧
    (∀ (rec : RecoverSigner) (checker : EthereumChecker)
        (sigs : List TxEthSignature) (msg : List Nat) (sender : Nat)
        (rest signers : List Nat),
      signers.contains sender = false → signers.length ≠ sigs.length →
      scanSignatures rec checker msg sender sigs = some false →
      batchLoop rec checker sigs msg (sender :: rest) signers =
        VOut.fail .IncorrectEthSignature) ∧
    (∀ (rec : RecoverSigner) (checker : EthereumChecker) (msg : List Nat)
        (sender : Nat),
      scanSignatures rec checker msg sender [] = some false) ∧
    (∀ (rec : RecoverSigner) (checker : EthereumChecker) (msg : List Nat)
        (sender : Nat) (sig : TxEthSignature) (rest : List TxEthSignature),
      verify_ethereum_signature rec checker sig msg sender = some true →
      scanSignatures rec checker msg sender (sig :: rest) = some true) ∧
    (∀ (rec : RecoverSigner) (checker : EthereumChecker) (msg : List Nat)
        (sender : Nat) (sig : TxEthSignature) (rest : List TxEthSignature),
      verify_ethereum_signature rec checker sig msg sender = some false →
      scanSignatures rec checker msg sender (sig :: rest) =
        scanSignatures rec checker msg sender rest) ∧
    verify_eth_signature_txs_batch recoverId checkerAllFalse [10, 10, 20]
      ⟨[.ethereumSignature 20, .ethereumSignature 10], [1]⟩ = VOut.done () ∧
    verify_eth_signature_txs_batch recoverId checkerAllFalse [10, 20, 30]
      ⟨[.ethereumSignature 10, .ethereumSignature 20], [1]⟩ =
      VOut.fail .IncorrectEthSignature := by
  refine ⟨?_, ?_, ?_, ?_, ?_, ?_, ?_, by decide, by decide⟩
  · intro rec checker sigs msg sender rest signers h
    have hm : sender ∈ signers := by simpa using h
    simp [batchLoop, hm]
  · intro rec checker sigs msg sender rest signers h hlen
    have hm : sender ∉ signers := by simpa using h
    simp [batchLoop, hm, hlen]
  · intro rec checker sigs msg sender rest signers h hlen hscan
    have hm : sender ∉ signers := by simpa using h
    simp [batchLoop, hm, hlen, hscan]
  · intro rec checker sigs msg sender rest signers h hlen hscan
    have hm : sender ∉ signers := by simpa using h
    simp [batchLoop, hm, hlen, hscan]
  · intro rec checker msg sender
    simp [scanSignatures]
  · intro rec checker msg sender sig rest h
    simp [scanSignatures, h]
  · intro rec checker msg sender sig rest h
    simp [scanSignatures, h]

/-- C5 counterexample: a verification request whose base-chain check needs an
oracle call (here the delegated EIP-1271 form), with the oracle unreachable, does
not produce any error result at all — the embedded outcome is the worker panic
from `expect`, not a `TxAddError` rejection, so the failure is not propagated to
the requester as a distinct error result. -/
theorem C5_counterexample_oracle_failure_is_panic :
    verify_eth_signature recoverId checkerAllErr
        (.order ⟨⟨0, 0⟩, ⟨.eip1271Signature 1, []⟩, 7⟩) = VOut.panic ∧
    (verify_eth_signature recoverId checkerAllErr
        (.order ⟨⟨0, 0⟩, ⟨.eip1271Signature 1, []⟩, 7⟩)).isFail = false := by
  decide

/-- C5 (amended): a failure to contact the oracle on any of the three delegated
base-chain checks (EIP-1271 signature, on-chain `ChangePubKey` authorization,
group-transfer authorization) makes the verification worker panic — a fatal
outcome for that request, distinct from the rejection error produced when the
oracle answers that the signature or authorization is invalid — but it is not
delivered to the requester as an error result. -/
theorem C5_oracle_failure_fatal_not_error (rec : RecoverSigner)
    (checker : EthereumChecker) :
    (∀ (s : Nat) (m : List Nat) (sender : Nat),
      checker.isEip1271SignatureCorrect sender m s = .error () →
      verify_ethereum_signature rec checker (.eip1271Signature s) m sender = none) ∧
    (∀ (tx : SignedZkSyncTx) (changePk : ChangePubKey) (sender : Nat),
      tx.tx = .changePubKey changePk → changePk.onchain = true →
      checker.isNewPubkeyHashAuthorized changePk.accountId changePk.nonce
        changePk.newPkHash = .error () →
      verify_eth_signature_single_tx rec checker tx sender = VOut.panic) ∧
    (∀ (tx : SignedZkSyncTx) (changePk : ChangePubKey) (sender : Nat),
      tx.tx = .changePubKey changePk → changePk.onchain = true →
      checker.isNewPubkeyHashAuthorized changePk.accountId changePk.nonce
        changePk.newPkHash = .ok false →
      verify_eth_signature_single_tx rec checker tx sender =
        VOut.fail .ChangePkNotAuthorized) ∧
    (∀ (tx : SignedZkSyncTx) (changeGroup : ChangeGroup) (sender : Nat),
      tx.tx = .changeGroup changeGroup →
      checker.isUserAllowedToTransferToThisGroup changeGroup.group2
        changeGroup.toAddr = .error () →
      verify_eth_signature_single_tx rec checker tx sender = VOut.panic) ∧
    (∀ (tx : SignedZkSyncTx) (changeGroup : ChangeGroup) (sender : Nat),
      tx.tx = .changeGroup changeGroup →
      checker.isUserAllowedToTransferToThisGroup changeGroup.group2
        changeGroup.toAddr = .ok false →
      verify_eth_signature_single_tx rec checker tx sender =
        VOut.fail .UserNotWhitelisted) ∧
    (∀ e : TxAddError, (VOut.panic : VOut Unit) ≠ VOut.fail e) := by
  refine ⟨?_, ?_, ?_, ?_, ?_, ?_⟩
  · intro s m sender h
    simp [verify_ethereum_signature, h]
  · intro tx changePk sender htx honchain h
    simp [verify_eth_signature_single_tx, htx, honchain, h, VOut.bind]
  · intro tx changePk sender htx honchain h
    simp [verify_eth_signature_single_tx, htx, honchain, h, VOut.bind]
  · intro tx changeGroup sender htx h
    simp [verify_eth_signature_single_tx, htx, h, VOut.bind]
  · intro tx changeGroup sender htx h
    simp [verify_eth_signature_single_tx, htx, h, VOut.bind]
  · intro e
    simp

/-- C7 counterexample: two `ChangeGroup` transactions that differ in a field (the
`fast` flag) serialize to identical canonical bytes, so changing a single field of
the transaction does not always change the resulting bytes — the encoding is not
injective on all field values. -/
theorem C7_counterexample_fast_flag_not_serialized :
    cgSample ≠ cgSampleFast ∧ cgSample.get_bytes = cgSampleFast.get_bytes := by
  constructor
  · decide
  · rfl

/-- C7 (amended): the canonical byte encoding is a pure function of the field
values, and it is injective on the fields the layout serializes (account id,
addresses, token, amount, fee, groups, nonce and the time-range window, for
in-range values with a packable fee); fields outside the layout — the `fast`
flag, the native signature and the signer cache — do not affect the bytes. -/
theorem C7_encoding_injective_on_serialized_fields (t1 t2 : ChangeGroup)
    (h1 : t1.fieldsInRange = true) (h2 : t2.fieldsInRange = true)
    (heq : t1.get_bytes = t2.get_bytes) :
    t1.serializedFields = t2.serializedFields := by
  have ha1 : t1.amount < 2 ^ 128 := by
    simp only [ChangeGroup.fieldsInRange, Bool.and_eq_true, decide_eq_true_eq] at h1
    exact h1.1.1.1.1.1.2
  obtain ⟨bs, hbs1⟩ : ∃ bs, t1.get_bytes = some bs := by
    unfold ChangeGroup.get_bytes
    rw [if_pos ha1]
    exact ⟨_, rfl⟩
  have hbs2 : t2.get_bytes = some bs := heq ▸ hbs1
  have d1 := decode_changeGroup_get_bytes t1 bs h1 hbs1
  have d2 := decode_changeGroup_get_bytes t2 bs h2 hbs2
  exact Option.some.inj (d1.symm.trans d2)

/-- C8: `check_correctness` is idempotent for a fixed signature scheme, server
configuration and authorization-flag pair — a second run on the transaction
returned by the first yields the same result and the same transaction — and
whenever the returned transaction carries a cached signer, that cache equals the
cold signature recovery over its canonical bytes (given the data-model invariant
that any pre-existing cache is itself the cold recovery). -/
theorem C8_check_correctness_idempotent (sch : NativeSigScheme) (cfg : ServerConfig)
    (senderAuth receiverAuth : Bool) (tx : Transfer)
    (h : tx.cacheConsistent sch) :
    Transfer.check_correctness sch cfg senderAuth receiverAuth
        (Transfer.check_correctness sch cfg senderAuth receiverAuth tx).2 =
      Transfer.check_correctness sch cfg senderAuth receiverAuth tx ∧
    ∀ c, ((Transfer.check_correctness sch cfg senderAuth receiverAuth tx).2).cachedSigner =
        .cached c →
      c = Transfer.coldSigner sch
        ((Transfer.check_correctness sch cfg senderAuth receiverAuth tx).2) := by
  have hv : tx.verify_signature sch = Transfer.coldSigner sch tx := by
    cases h with
    | inl h0 => simp [Transfer.verify_signature, h0]
    | inr h0 => simp [Transfer.verify_signature, h0]
  have hpre_cache : ∀ c : VerifiedSignatureCache,
      Transfer.checkPre cfg senderAuth receiverAuth { tx with cachedSigner := c } =
        Transfer.checkPre cfg senderAuth receiverAuth tx := fun _ => rfl
  have hcold_cache : ∀ c : VerifiedSignatureCache,
      Transfer.coldSigner sch { tx with cachedSigner := c } =
        Transfer.coldSigner sch tx := fun _ => rfl
  cases hpre : Transfer.checkPre cfg senderAuth receiverAuth tx with
  | some e =>
    have e1 : Transfer.check_correctness sch cfg senderAuth receiverAuth tx =
        (.error e, tx) := by
      unfold Transfer.check_correctness
      simp only [hpre]
    rw [e1]
    refine ⟨e1, ?_⟩
    intro c hc
    have hc2 : tx.cachedSigner = .cached c := hc
    cases h with
    | inl h0 => rw [h0] at hc2; cases hc2
    | inr h0 =>
      rw [h0] at hc2
      show c = Transfer.coldSigner sch tx
      exact (VerifiedSignatureCache.cached.inj hc2).symm
  | none =>
    have e1 : Transfer.check_correctness sch cfg senderAuth receiverAuth tx =
        (if (Transfer.coldSigner sch tx).isNone
          then (.error .WrongSignature,
            { tx with cachedSigner := .cached (Transfer.coldSigner sch tx) })
          else (.ok (),
            { tx with cachedSigner := .cached (Transfer.coldSigner sch tx) })) := by
      unfold Transfer.check_correctness
      simp only [hpre, hv]
    have e2 : Transfer.check_correctness sch cfg senderAuth receiverAuth
        { tx with cachedSigner := .cached (Transfer.coldSigner sch tx) } =
        (if (Transfer.coldSigner sch tx).isNone
          then (.error .WrongSignature,
            { tx with cachedSigner := .cached (Transfer.coldSigner sch tx) })
          else (.ok (),
            { tx with cachedSigner := .cached (Transfer.coldSigner sch tx) })) := by
      unfold Transfer.check_correctness
      simp only [(hpre_cache _).trans hpre]
      simp only [Transfer.verify_signature]
    have eE2 : (if (Transfer.coldSigner sch tx).isNone
        then ((.error .WrongSignature : Except TransferError Unit),
          { tx with cachedSigner := .cached (Transfer.coldSigner sch tx) })
        else (.ok (),
          { tx with cachedSigner := .cached (Transfer.coldSigner sch tx) })).2 =
        { tx with cachedSigner := .cached (Transfer.coldSigner sch tx) } := by
      cases hb : (Transfer.coldSigner sch tx).isNone <;> simp [hb]
    constructor
    · rw [e1, eE2]
      exact e2
    · intro c hc
      rw [e1, eE2] at hc
      have hc2 : VerifiedSignatureCache.cached (Transfer.coldSigner sch tx) =
          .cached c := hc
      rw [e1, eE2, hcold_cache]
      exact (VerifiedSignatureCache.cached.inj hc2).symm

/-! ## Witnesses -/

/-- Witness for C2 at the spec's concrete figures: balance 100 of token 1 at
nonce 5, amount 40 + fee 10 at nonce 5 — the update records balances 100 → 50 and
nonces 5 → 6, with a collected fee of 10 in token 1. -/
theorem C2_witness :
    ∃ s2, stateW.apply_change_group_op cgOpW =
      some (.ok (some ⟨1, 10⟩, [(3, .updateBalance 1 100 50 5 6)]), s2) := by
  obtain ⟨s2, h1, _, _⟩ :=
    C2_change_group_apply_op_success stateW cgOpW accW rfl (by decide) rfl (by decide)
  exact ⟨s2, h1⟩

/-- Witness for C3: the same transaction replayed at nonce 6 is rejected with a
nonce mismatch, and amount 95 + fee 10 against balance 100 is rejected with an
insufficient balance; both leave the state untouched. -/
theorem C3_witness :
    stateW.apply_change_group_op cgOpWrongNonce =
      some (.error .NonceMismatch, stateW) ∧
    stateW.apply_change_group_op cgOpPoor =
      some (.error .InsufficientBalance, stateW) :=
  ⟨(C3_change_group_apply_op_errors stateW cgOpWrongNonce accW rfl
      (by decide)).1 (by decide),
   (C3_change_group_apply_op_errors stateW cgOpPoor accW rfl
      (by decide)).2 rfl (by decide)⟩

/-- Witness for C4: the full group change drains the whole balance 100 of token 1
to zero without touching the nonce and without a fee. -/
theorem C4_witness :
    ∃ s2, stateW.apply_full_change_group_op ⟨fcgW, some 100, none, none, none, none⟩ =
      some ((none, [(3, .updateBalance 1 100 0 5 5)]), s2) := by
  obtain ⟨s2, h1, _⟩ :=
    (C4_full_change_group_drains_balance stateW fcgW
        ⟨fcgW, some 100, none, none, none, none⟩ (by decide) (by decide)).1 accW
      (by decide)
  exact ⟨s2, h1⟩

/-- Witness for C9: amount `2 ^ 128` makes `get_bytes` panic while
`check_correctness` reports `WrongAmount` without panicking, and the in-range
sample serializes. -/
theorem C9_witness :
    ChangeGroup.get_bytes { cgTxW with amount := 2 ^ 128 } = none ∧
    ChangeGroup.check_correctness schW cfgW { cgTxW with amount := 2 ^ 128 } =
      some (.error .WrongAmount, { cgTxW with amount := 2 ^ 128 }) ∧
    cgTxW.get_bytes.isSome = true :=
  ⟨C9_get_bytes_partial_above_u128.1 _ (by decide),
   C9_get_bytes_partial_above_u128.2.2.2.1 schW cfgW _ (by decide),
   C9_get_bytes_partial_above_u128.2.2.2.2 cgTxW (by decide)⟩

/-- Witness for C6: an order request whose recoverable signature recovers to the
wrong address is rejected by the base-chain stage, and the overall verification
reports exactly that error for an arbitrary native stage. -/
theorem C6_witness :
    VerifiedTx.verify recoverId checkerAllFalse (fun v => .done v)
        (.order ⟨⟨0, 0⟩, ⟨.ethereumSignature 5, []⟩, 7⟩) =
      VOut.fail .IncorrectEthSignature :=
  (C6_base_chain_failure_short_circuits recoverId checkerAllFalse
      (.order ⟨⟨0, 0⟩, ⟨.ethereumSignature 5, []⟩, 7⟩) .IncorrectEthSignature
      (by decide) (fun v => .done v)).1

/-- Witness for C1: the skip, pigeonhole short-circuit, first-match and no-match
recurrence equations at concrete instances. -/
theorem C1_witness :
    batchLoop recoverId checkerAllFalse [] [] [10] [10] =
      batchLoop recoverId checkerAllFalse [] [] [] [10] ∧
    batchLoop recoverId checkerAllFalse [.ethereumSignature 10] [] [20] [10] =
      VOut.fail .IncorrectEthSignature ∧
    batchLoop recoverId checkerAllFalse [.ethereumSignature 10] [] [10] [] =
      batchLoop recoverId checkerAllFalse [.ethereumSignature 10] [] [] [10] ∧
    batchLoop recoverId checkerAllFalse [.ethereumSignature 20] [] [10] [] =
      VOut.fail .IncorrectEthSignature :=
  ⟨C1_batch_matching_greedy_pigeonhole.1 recoverId checkerAllFalse [] [] 10 [] [10]
      (by decide),
   C1_batch_matching_greedy_pigeonhole.2.1 recoverId checkerAllFalse
      [.ethereumSignature 10] [] 20 [] [10] (by decide) (by decide),
   C1_batch_matching_greedy_pigeonhole.2.2.1 recoverId checkerAllFalse
      [.ethereumSignature 10] [] 10 [] [] (by decide) (by decide) (by decide),
   C1_batch_matching_greedy_pigeonhole.2.2.2.1 recoverId checkerAllFalse
      [.ethereumSignature 20] [] 10 [] [] (by decide) (by decide) (by decide)⟩

/-- Witness for C5 (amended): an unreachable oracle makes the EIP-1271 check and
the on-chain `ChangePubKey` check panic, while a reachable oracle answering
`false` produces the authorization-rejection error. -/
theorem C5_witness :
    verify_ethereum_signature recoverId checkerAllErr (.eip1271Signature 1) [] 7 =
      none ∧
    verify_eth_signature_single_tx recoverId checkerAllErr signedCpkW 88 =
      VOut.panic ∧
    verify_eth_signature_single_tx recoverId checkerAllFalse signedCpkW 88 =
      VOut.fail .ChangePkNotAuthorized :=
  ⟨(C5_oracle_failure_fatal_not_error recoverId checkerAllErr).1 1 [] 7 rfl,
   (C5_oracle_failure_fatal_not_error recoverId checkerAllErr).2.1 signedCpkW cpkW 88
      rfl rfl rfl,
   (C5_oracle_failure_fatal_not_error recoverId checkerAllFalse).2.2.1 signedCpkW
      cpkW 88 rfl rfl rfl⟩

/-- Witness for C7 (amended): the two sample transactions differing only in the
unserialized `fast` flag are in range, their bytes agree, and injectivity forces
their serialized fields to agree. -/
theorem C7_witness :
    cgSample.fieldsInRange = true ∧ cgSampleFast.fieldsInRange = true ∧
    cgSample.serializedFields = cgSampleFast.serializedFields :=
  ⟨by decide, by decide,
   C7_encoding_injective_on_serialized_fields cgSample cgSampleFast (by decide)
      (by decide) rfl⟩

/-- Witness for C8: a second `check_correctness` run on the concrete transfer
reproduces the first run's result and transaction. -/
theorem C8_witness :
    Transfer.check_correctness schW cfgW true true
        (Transfer.check_correctness schW cfgW true true trTxW).2 =
      Transfer.check_correctness schW cfgW true true trTxW :=
  (C8_check_correctness_idempotent schW cfgW true true trTxW (Or.inl rfl)).1

end Rollup
